import Mathlib

/-!
Verification of the TMP2 temperature-sensor driver
(src/python/pyxi/pmods/tmp2.py) against its design document.

The driver talks to a co-processor through a memory-mapped mailbox.  All
mailbox addresses in the source are of the form `MAILBOX_OFFSET + off`; we
model addresses by the relative offset `off` from the mailbox base.  The
command-cell offset `MAILBOX_PY2IOP_CMD_OFFSET` is a provider-defined
constant not part of this repository, so every operation is parameterised
by `cmdOff : ℕ`.

Python floating point: every arithmetic step of `_reg2float` is exact in
IEEE-754 double precision (the significand built there has at most 24 bits
and the scaling is by a power of two in range), so the value being
formatted is an exact dyadic rational and we compute it in `ℚ`.  The final
`float("{0:.1f}".format(result))` is correctly-rounded decimal formatting
of that exact value to one decimal place with ties to even, followed by
the nearest-double conversion of the resulting one-decimal numeral; we
model the returned value by that one-decimal rational.
-/

set_option maxRecDepth 10000
set_option linter.unusedVariables false

namespace Tmp2

/-- The integer nearest to `x`, an exact tie going to the even one. -/
def halfEvenInt (x : ℚ) : ℚ :=
  if x - (⌊x⌋ : ℚ) < 1 / 2 then (⌊x⌋ : ℚ)
  else if (1 / 2 : ℚ) < x - (⌊x⌋ : ℚ) then (⌊x⌋ : ℚ) + 1
  else if ⌊x⌋ % 2 = 0 then (⌊x⌋ : ℚ) else (⌊x⌋ : ℚ) + 1

/-- Correctly-rounded decimal formatting to one decimal place with ties to
even, as performed by CPython's `"{0:.1f}".format` on the exact value of a
double: the result is the multiple of 1/10 nearest to `q`, an exact tie
going to the choice with even tenths digit. -/
def roundTenthsHalfEven (q : ℚ) : ℚ :=
  halfEvenInt (q * 10) / 10

/-- Rounding of a nonnegative rational to one decimal place with halves
rounded up, helper for `roundTenthsHalfAway`. -/
def roundTenthsUp (q : ℚ) : ℚ :=
  if q * 10 - (⌊q * 10⌋ : ℚ) < 1 / 2 then (⌊q * 10⌋ : ℚ) / 10
  else ((⌊q * 10⌋ : ℚ) + 1) / 10

/-- Modelled from the spec's words in claim C3: rounding "to exactly one
decimal digit using half-away-from-zero decimal-string rounding of one
decimal place" — the multiple of 1/10 nearest to `q`, an exact tie going
away from zero. -/
def roundTenthsHalfAway (q : ℚ) : ℚ :=
  if 0 ≤ q then roundTenthsUp q else - roundTenthsUp (-q)

/-- tmp2.py line 220: `sign = (reg & 0x80000000) >> 31 & 0x01`. -/
def reg2float_sign (reg : ℕ) : ℕ :=
  ((reg &&& 0x80000000) >>> 31) &&& 0x01

/-- tmp2.py line 221: `exp = ((reg & 0x7f800000) >> 23)-127`. -/
def reg2float_exp (reg : ℕ) : ℤ :=
  (((reg &&& 0x7f800000) >>> 23 : ℕ) : ℤ) - 127

/-- tmp2.py lines 222-225: `man = (reg & 0x007fffff)/pow(2,23)` when
`exp == 0`, else `man = 1+(reg & 0x007fffff)/pow(2,23)`. -/
def reg2float_man (reg : ℕ) : ℚ :=
  if reg2float_exp reg = 0 then ((reg &&& 0x007fffff : ℕ) : ℚ) / 2 ^ 23
  else 1 + ((reg &&& 0x007fffff : ℕ) : ℚ) / 2 ^ 23

/-- `TMP2._reg2float` (tmp2.py lines 218-227): the zero shortcut, then
`result = pow(2,exp)*(man)*((sign*-2) +1)` and the one-decimal formatting
`float("{0:.1f}".format(result))`. -/
def _reg2float (reg : ℕ) : ℚ :=
  if reg = 0 then 0
  else
    roundTenthsHalfEven
      ((2 : ℚ) ^ reg2float_exp reg * reg2float_man reg *
        (((reg2float_sign reg : ℤ) * (-2) + 1 : ℤ) : ℚ))

/-- Spec §4.6: the sign factor, `−1` if bit 31 of the 32-bit input is set,
else `+1`. -/
def specSign (reg : ℕ) : ℤ :=
  if reg / 2 ^ 31 % 2 = 1 then -1 else 1

/-- Spec §4.6: the biased exponent field, bits [30:23] of the input. -/
def specExpField (reg : ℕ) : ℕ :=
  reg / 2 ^ 23 % 2 ^ 8

/-- Spec §4.6: the debiased exponent, bits [30:23] minus 127. -/
def specExp (reg : ℕ) : ℤ :=
  (specExpField reg : ℤ) - 127

/-- Spec §4.6: the mantissa fraction, bits [22:0] divided by 2^23. -/
def specFrac (reg : ℕ) : ℚ :=
  ((reg % 2 ^ 23 : ℕ) : ℚ) / 2 ^ 23

/-- Spec §4.6: the significand — the mantissa fraction alone on the
denormal-style branch (debiased exponent equal to 0), else one plus it. -/
def specMan (reg : ℕ) : ℚ :=
  if specExp reg = 0 then specFrac reg else 1 + specFrac reg

/-- Spec §4.6 decoding with an explicit one-decimal rounding mode `rnd`:
0 for the zero input, else `2^exponent × significand × sign` rounded. -/
def specDecode (rnd : ℚ → ℚ) (reg : ℕ) : ℚ :=
  if reg = 0 then 0
  else rnd ((2 : ℚ) ^ specExp reg * specMan reg * (specSign reg : ℚ))

/-- The mutable attributes of a `TMP2` instance that the driver logic
touches: `log_ms` (tmp2.py line 75) and the cached raw reading `value`
(line 97).  The `iop`/`mmio` handles are the external collaborators and
are modelled by the operation parameters instead. -/
structure TMP2State where
  log_ms : ℤ
  value : ℕ
deriving DecidableEq

/-- `TMP2.__init__` (tmp2.py lines 56-77): `self.log_ms = 0`.  The
`value` attribute does not exist before the first `read`; it is modelled
as 0. -/
def init : TMP2State := ⟨0, 0⟩

/-- Python exceptions raised by the driver. -/
inductive PyError where
  | valueError (msg : String)
  | attributeError (name : String)
deriving DecidableEq

/-- Observable mailbox actions of one driver operation, in program order:
a 4-byte write at a relative offset, a 4-byte
read at a relative offset (recording the value the transport returned),
or a printed `(sequence_index, decoded_value)` pair. -/
inductive Event where
  | write (off : ℕ) (val : ℤ)
  | read (off : ℕ) (val : ℕ)
  | emit (idx : ℕ) (val : ℚ)
deriving DecidableEq

/-- Outcome of one driver operation: the exception it raised (if any),
the instance state afterwards (a Python `raise` leaves the already-made
attribute updates in place), and the mailbox/print trace it produced. -/
structure OpResult where
  err : Option PyError
  state : TMP2State
  trace : List Event
deriving DecidableEq

/-- Python attribute lookup on a `TMP2` instance for a decoding method.
The class defines exactly one decoder, named `_reg2float` (tmp2.py line
195); looking up any other name — in particular the `reg2float`
referenced at line 189 — raises `AttributeError`, modelled as `none`. -/
def getMethod (name : String) : Option (ℕ → ℚ) :=
  if name = ("_reg2float") then some _reg2float else none

/-- The busy-poll loop of `TMP2.read` (tmp2.py lines 94-96): the i-th
iteration reads the command cell and the transport returns `env i`; the
loop exits at the first value that is not 3.  `fuel` bounds how many
iterations we unroll; `none` means the loop was still spinning after
`fuel` reads. -/
def pollCmd (cmdOff : ℕ) (env : ℕ → ℕ) : ℕ → ℕ → Option ℕ × List Event
  | 0, _ => (none, [])
  | fuel + 1, i =>
    if env i = 3 then
      let r := pollCmd cmdOff env fuel (i + 1)
      (r.1, Event.read cmdOff (env i) :: r.2)
    else
      (some i, [Event.read cmdOff (env i)])

/-- `TMP2.read` (tmp2.py lines 79-98): write opcode 3 to the command
cell, spin on the command cell, then read the data cell (relative offset
0, whose content is `data`), cache it in `value` and return its decoding.
`none` in the first component means the spin loop had not exited within
`fuel` polls — with unbounded fuel, a call that never returns. -/
def read (cmdOff : ℕ) (env : ℕ → ℕ) (data : ℕ) (s : TMP2State) (fuel : ℕ) :
    Option ℚ × TMP2State × List Event :=
  let p := pollCmd cmdOff env fuel 0
  match p.1 with
  | none => (none, s, Event.write cmdOff 3 :: p.2)
  | some _ =>
    (some (_reg2float data), { s with value := data },
      Event.write cmdOff 3 :: (p.2 ++ [Event.read 0 data]))

/-- `TMP2.set_log_ms` (tmp2.py lines 100-119): raise `ValueError` when
the argument is negative (before any mutation), else store it in
`log_ms` and write `self.log_ms` to relative offset 4. -/
def set_log_ms (s : TMP2State) (log_ms : ℤ) : OpResult :=
  if log_ms < 0 then
    ⟨some (PyError.valueError ("Log length should not be less than 0.")), s, []⟩
  else
    ⟨none, { s with log_ms := log_ms }, [Event.write 4 log_ms]⟩

/-- `TMP2.start_log` (tmp2.py lines 121-138): `set_log_ms(log_ms)` (the
Python default argument is 0), then write opcode 7 to the command cell;
an exception from `set_log_ms` propagates before that write. -/
def start_log (cmdOff : ℕ) (s : TMP2State) (log_ms : ℤ) : OpResult :=
  let r := set_log_ms s log_ms
  match r.err with
  | some e => ⟨some e, r.state, r.trace⟩
  | none => ⟨none, r.state, r.trace ++ [Event.write cmdOff 7]⟩

/-- `TMP2.stop_log` (tmp2.py lines 140-155): write opcode 1 to the
command cell. -/
def stop_log (cmdOff : ℕ) (s : TMP2State) : OpResult :=
  ⟨none, s, [Event.write cmdOff 1]⟩

/-- The dump loop of `TMP2.print_log` (tmp2.py lines 187-193):
`for x in range(count)`, read the raw word at relative offset
`(3+x)*4`, then call `self.reg2float(temp)` — an attribute the class
does not define (`getMethod`), so the first iteration raises
`AttributeError` after its read.  `cur` is the source's `current_ptr`
bookkeeping (incremented mod 1000, never used for addressing). -/
def printLogLoop (mbx : ℕ → ℕ) : ℕ → ℕ → ℕ → List Event × Option PyError
  | _, _, 0 => ([], none)
  | x, cur, n + 1 =>
    let temp := mbx ((3 + x) * 4)
    match getMethod ("reg2float") with
    | none => ([Event.read ((3 + x) * 4) temp], some (PyError.attributeError ("reg2float")))
    | some f =>
      let rest := printLogLoop mbx (x + 1) (if cur < 999 then cur + 1 else 0) n
      (Event.read ((3 + x) * 4) temp :: Event.emit x (f temp) :: rest.1, rest.2)

/-- `TMP2.print_log` (tmp2.py lines 157-193): `stop_log()`, read the
log-end-pointer at relative offset 8 (the transport returns `mbx 8`, and
slot `i` of the ring holds `mbx (12 + 4*i)`), then branch on
`end_ptr >= 1000` exactly as the source does — including the reassigned
`end_ptr - 1000`, which the source never uses afterwards — and run the
dump loop. -/
def print_log (cmdOff : ℕ) (s : TMP2State) (mbx : ℕ → ℕ) : OpResult :=
  let r0 := stop_log cmdOff s
  let end_ptr := mbx 8
  let current_ptr := if 1000 ≤ end_ptr then end_ptr - 999 else 0
  let end_ptr2 := if 1000 ≤ end_ptr then end_ptr - 1000 else end_ptr
  let count := if 1000 ≤ end_ptr then 1000 else end_ptr
  let loop := printLogLoop mbx 0 current_ptr count
  ⟨loop.2, r0.state, r0.trace ++ [Event.read 8 end_ptr] ++ loop.1⟩

/-- A mailbox whose log-end-pointer cell (relative offset 8) holds 1200
and whose other words hold 0: the wrapped-ring scenario of spec §8. -/
def mbx1200 : ℕ → ℕ := fun off => if off = 8 then 1200 else 0

/-- A mailbox whose log-end-pointer cell (relative offset 8) holds 1 and
whose other words hold 0: a one-entry log. -/
def mbx1 : ℕ → ℕ := fun off => if off = 8 then 1 else 0

/-! ## Bridging the source's bit operations to arithmetic on bit fields -/

theorem land_mantissa (reg : ℕ) : reg &&& 0x007fffff = reg % 2 ^ 23 := by
  have h : (0x007fffff : ℕ) = 2 ^ 23 - 1 := by norm_num
  rw [h, Nat.and_pow_two_sub_one_eq_mod]

theorem land_exp_shift (reg : ℕ) :
    (reg &&& 0x7f800000) >>> 23 = reg / 2 ^ 23 % 2 ^ 8 := by
  have hdiv : reg / 2 ^ 23 % 2 ^ 8 = (reg >>> 23) % 2 ^ 8 := by
    rw [Nat.shiftRight_eq_div_pow]
  apply Nat.eq_of_testBit_eq
  intro j
  rw [Nat.testBit_shiftRight, Nat.testBit_and, hdiv, Nat.testBit_mod_two_pow,
    Nat.testBit_shiftRight]
  have hm : Nat.testBit 0x7f800000 (23 + j) = decide (j < 8) := by
    rcases Nat.lt_or_ge j 8 with hj | hj
    · interval_cases j <;> decide
    · have hlt : (0x7f800000 : ℕ) < 2 ^ (23 + j) :=
        lt_of_lt_of_le (show (0x7f800000 : ℕ) < 2 ^ 31 by norm_num)
          (Nat.pow_le_pow_right (by norm_num) (by omega))
      rw [Nat.testBit_lt_two_pow hlt]
      simp [Nat.not_lt.2 hj]
  rw [hm]
  cases Nat.testBit reg (23 + j) <;> simp

theorem sign_eq_div_mod (reg : ℕ) : reg2float_sign reg = reg / 2 ^ 31 % 2 := by
  unfold reg2float_sign
  have h1 : (0x01 : ℕ) = 2 ^ 1 - 1 := by norm_num
  have h2 : (0x80000000 : ℕ) = 2 ^ 31 := by norm_num
  rw [h1, Nat.and_pow_two_sub_one_eq_mod, h2, Nat.and_two_pow,
    Nat.shiftRight_eq_div_pow, Nat.mul_div_cancel _ (Nat.pos_pow_of_pos 31 (by norm_num)),
    Nat.testBit_to_div_mod]
  rcases Nat.mod_two_eq_zero_or_one (reg / 2 ^ 31) with h | h <;>
    simp only [h] <;> decide

theorem exp_eq_spec (reg : ℕ) : reg2float_exp reg = specExp reg := by
  unfold reg2float_exp specExp specExpField
  rw [land_exp_shift]

theorem man_eq_spec (reg : ℕ) : reg2float_man reg = specMan reg := by
  unfold reg2float_man specMan specFrac
  rw [exp_eq_spec, land_mantissa]

theorem sign_factor_eq_spec (reg : ℕ) :
    (((reg2float_sign reg : ℤ) * (-2) + 1 : ℤ) : ℚ) = (specSign reg : ℚ) := by
  rw [sign_eq_div_mod]
  unfold specSign
  rcases Nat.mod_two_eq_zero_or_one (reg / 2 ^ 31) with h | h <;>
    simp only [h] <;> norm_num

/-- The source decoder agrees, on every input, with the spec §4.6
decoding read with round-half-to-even one-decimal rounding. -/
theorem reg2float_eq_spec (reg : ℕ) :
    _reg2float reg = specDecode roundTenthsHalfEven reg := by
  unfold _reg2float specDecode
  rcases eq_or_ne reg 0 with rfl | h0
  · simp
  · rw [if_neg h0, if_neg h0, exp_eq_spec, man_eq_spec, sign_factor_eq_spec]

/-! ## The rounding commutes with negation -/

theorem halfEvenInt_neg (x : ℚ) : halfEvenInt (-x) = - halfEvenInt x := by
  unfold halfEvenInt
  rcases eq_or_lt_of_le (Int.floor_le x) with heq | hgt
  · have h1 : ⌊-x⌋ = -⌊x⌋ := by
      conv_lhs => rw [← heq]
      rw [← Int.cast_neg, Int.floor_intCast]
    rw [h1]
    rw [if_pos (show -x - ((-⌊x⌋ : ℤ) : ℚ) < 1 / 2 by push_cast; linarith),
      if_pos (show x - ((⌊x⌋ : ℤ) : ℚ) < 1 / 2 by linarith)]
    push_cast
    ring
  · have hf1 : x < (⌊x⌋ : ℚ) + 1 := Int.lt_floor_add_one x
    have hneg : ⌊-x⌋ = -⌊x⌋ - 1 := by
      rw [Int.floor_eq_iff]
      constructor
      · push_cast
        linarith
      · push_cast
        linarith
    rw [hneg]
    rcases lt_trichotomy (x - (⌊x⌋ : ℚ)) (1 / 2) with hc | hc | hc
    · rw [if_neg (show ¬(-x - ((-⌊x⌋ - 1 : ℤ) : ℚ) < 1 / 2) by push_cast; linarith),
        if_pos (show (1 / 2 : ℚ) < -x - ((-⌊x⌋ - 1 : ℤ) : ℚ) by push_cast; linarith),
        if_pos hc]
      push_cast
      ring
    · rw [if_neg (show ¬(-x - ((-⌊x⌋ - 1 : ℤ) : ℚ) < 1 / 2) by push_cast; linarith),
        if_neg (show ¬((1 / 2 : ℚ) < -x - ((-⌊x⌋ - 1 : ℤ) : ℚ)) by push_cast; linarith),
        if_neg (show ¬(x - ((⌊x⌋ : ℤ) : ℚ) < 1 / 2) by linarith),
        if_neg (show ¬((1 / 2 : ℚ) < x - ((⌊x⌋ : ℤ) : ℚ)) by linarith)]
      by_cases hpar : ⌊x⌋ % 2 = 0
      · rw [if_neg (show ¬((-⌊x⌋ - 1) % 2 = 0) by omega), if_pos hpar]
        push_cast
        ring
      · rw [if_pos (show (-⌊x⌋ - 1) % 2 = 0 by omega), if_neg hpar]
        push_cast
        ring
    · rw [if_pos (show -x - ((-⌊x⌋ - 1 : ℤ) : ℚ) < 1 / 2 by push_cast; linarith),
        if_neg (show ¬(x - ((⌊x⌋ : ℤ) : ℚ) < 1 / 2) by linarith),
        if_pos hc]
      push_cast
      ring

theorem roundTenthsHalfEven_neg (q : ℚ) :
    roundTenthsHalfEven (-q) = - roundTenthsHalfEven q := by
  unfold roundTenthsHalfEven
  rw [show -q * 10 = -(q * 10) by ring, halfEvenInt_neg]
  ring

/-! ## Behaviour of the poll loop of `read` -/

theorem pollCmd_eq_none (cmdOff : ℕ) (env : ℕ → ℕ) (h : ∀ n, env n = 3) :
    ∀ fuel i, (pollCmd cmdOff env fuel i).1 = none := by
  intro fuel
  induction fuel with
  | zero => intro i; rfl
  | succ m ih => intro i; simp [pollCmd, h i, ih (i + 1)]

theorem pollCmd_isSome (cmdOff : ℕ) (env : ℕ → ℕ) :
    ∀ fuel i n, n < fuel → env (i + n) ≠ 3 → ((pollCmd cmdOff env fuel i).1).isSome := by
  intro fuel
  induction fuel with
  | zero => intro i n hn hne; exact absurd hn (Nat.not_lt_zero n)
  | succ m ih =>
    intro i n hn hne
    by_cases h3 : env i = 3
    · have hn0 : n ≠ 0 := by
        rintro rfl
        exact hne (by simpa using h3)
      have hs := ih (i + 1) (n - 1) (by omega) (by
        have hsum : i + 1 + (n - 1) = i + n := by omega
        rw [hsum]; exact hne)
      simp [pollCmd, h3, hs]
    · simp [pollCmd, h3]

/-! ## Claim theorems -/

/-- C1: `print_log` with a wrapped end-pointer (here 1200) is claimed to
read 1000 raw words starting at physical slot 200 (relative offset
`(3+200)*4 = 812`).  The code instead issues its first and only slot
read at relative offset 12, i.e. physical slot 0 — the loop index starts
at 0 and the computed `end_ptr - 1000` is never used — and then raises
`AttributeError` because it calls the undefined `self.reg2float`. -/
theorem print_log_wrapped_reads_slot_zero (cmdOff : ℕ) (s : TMP2State) :
    print_log cmdOff s mbx1200 =
      ⟨some (PyError.attributeError ("reg2float")), s,
        [Event.write cmdOff 1, Event.read 8 1200, Event.read 12 0]⟩ := by
  rfl

/-- C2: with a computed entry count of 1 (end-pointer 1), `print_log` is
claimed to emit one decoded pair and finish without error.  The code
reads the slot-0 word and then raises `AttributeError` on the very first
entry — `self.reg2float` does not exist (the method is `_reg2float`) —
so no pair is emitted. -/
theorem print_log_raises_attribute_error (cmdOff : ℕ) (s : TMP2State) :
    print_log cmdOff s mbx1 =
      ⟨some (PyError.attributeError ("reg2float")), s,
        [Event.write cmdOff 1, Event.read 8 1, Event.read 12 0]⟩ := by
  rfl

/-- C3 counterexample: at input `0x3E800000` (= 1048576000) the exact
result is `2^-2 × 1 × 1 = 0.25`; the code's decimal formatting rounds
the tie to even, returning 0.2, while the claimed half-away-from-zero
rounding would return 0.3. -/
theorem reg2float_rounding_cex :
    _reg2float 1048576000 = 1 / 5 ∧
    specDecode roundTenthsHalfAway 1048576000 = 3 / 10 ∧
    (1 / 5 : ℚ) ≠ 3 / 10 := by
  refine ⟨?_, ?_, by norm_num⟩
  · rw [reg2float_eq_spec]
    norm_num [specDecode, specExp, specExpField, specFrac, specMan, specSign,
      roundTenthsHalfEven, halfEvenInt]
  · norm_num [specDecode, specExp, specExpField, specFrac, specMan, specSign,
      roundTenthsHalfAway, roundTenthsUp]

/-- C3 (amended): for every 32-bit input, `_reg2float` returns
`2^exponent × significand × (−1 if the sign bit is set else +1)` rounded
to one decimal digit by round-half-to-even decimal rounding (CPython's
correctly-rounded `"{0:.1f}"` formatting), not half-away-from-zero. -/
theorem reg2float_rounds_half_even (reg : ℕ) (h : reg < 2 ^ 32) :
    _reg2float reg = specDecode roundTenthsHalfEven reg :=
  reg2float_eq_spec reg

theorem reg2float_rounds_half_even_witness :
    1048576000 < 2 ^ 32 ∧
    _reg2float 1048576000 = specDecode roundTenthsHalfEven 1048576000 :=
  ⟨by norm_num, reg2float_rounds_half_even 1048576000 (by norm_num)⟩

/-- C4: for every nonzero 32-bit input the significand used by
`_reg2float` is the bare mantissa fraction exactly when the biased
exponent field equals 127 (debiased exponent 0), and `1 +` the mantissa
fraction otherwise. -/
theorem significand_denormal_iff_biased_127 (reg : ℕ) (h32 : reg < 2 ^ 32)
    (h0 : reg ≠ 0) :
    reg2float_man reg =
      if specExpField reg = 127 then specFrac reg else 1 + specFrac reg := by
  rw [man_eq_spec]
  unfold specMan specExp
  rcases eq_or_ne (specExpField reg) 127 with h | h
  · rw [if_pos (show ((specExpField reg : ℤ) - 127 = 0) by rw [h]; norm_num), if_pos h]
  · rw [if_neg (show ¬((specExpField reg : ℤ) - 127 = 0) by omega), if_neg h]

theorem significand_denormal_iff_biased_127_witness :
    (1103626240 : ℕ) < 2 ^ 32 ∧ (1103626240 : ℕ) ≠ 0 ∧
    reg2float_man 1103626240 =
      (if specExpField 1103626240 = 127 then specFrac 1103626240
        else 1 + specFrac 1103626240) :=
  ⟨by norm_num, by norm_num,
    significand_denormal_iff_biased_127 1103626240 (by norm_num) (by norm_num)⟩

/-- C5: `read` first writes opcode 3 to the command cell; if some poll
of the command cell returns a value other than 3 there is a fuel bound
under which the call returns the decoded data-cell value, and if every
poll returns 3 the call returns under no fuel bound (it never returns). -/
theorem read_poll_contract (cmdOff : ℕ) (env : ℕ → ℕ) (data : ℕ) (s : TMP2State) :
    (∀ fuel, ((read cmdOff env data s fuel).2.2).head? = some (Event.write cmdOff 3)) ∧
    ((∃ n, env n ≠ 3) →
      ∃ fuel, (read cmdOff env data s fuel).1 = some (_reg2float data)) ∧
    ((∀ n, env n = 3) → ∀ fuel, (read cmdOff env data s fuel).1 = none) := by
  refine ⟨?_, ?_, ?_⟩
  · intro fuel
    unfold read
    rcases hp : (pollCmd cmdOff env fuel 0).1 with _ | k <;> simp [hp]
  · rintro ⟨n, hn⟩
    refine ⟨n + 1, ?_⟩
    have hs := pollCmd_isSome cmdOff env (n + 1) 0 n (by omega) (by simpa using hn)
    unfold read
    rcases hp : (pollCmd cmdOff env (n + 1) 0).1 with _ | k
    · rw [hp] at hs
      simp at hs
    · simp [hp]
  · intro h fuel
    simp [read, pollCmd_eq_none cmdOff env h fuel 0]

theorem read_poll_contract_witness :
    ∃ fuel, (read 52 (fun n => if n = 0 then 3 else 0) 1103626240 init fuel).1 =
      some (_reg2float 1103626240) :=
  (read_poll_contract 52 (fun n => if n = 0 then 3 else 0) 1103626240 init).2.1
    ⟨1, by norm_num⟩

/-- C6: `set_log_ms` with a negative argument raises `ValueError`
leaving `log_ms` untouched and writing nothing; with a nonnegative
argument it stores the value in `log_ms` and writes it to relative
offset 4 (the log-length cell). -/
theorem set_log_ms_contract (s : TMP2State) (ms : ℤ) :
    (ms < 0 → set_log_ms s ms =
      ⟨some (PyError.valueError ("Log length should not be less than 0.")), s, []⟩) ∧
    (0 ≤ ms → set_log_ms s ms =
      ⟨none, { s with log_ms := ms }, [Event.write 4 ms]⟩) := by
  constructor
  · intro h
    unfold set_log_ms
    rw [if_pos h]
  · intro h
    unfold set_log_ms
    rw [if_neg (not_lt.2 h)]

theorem set_log_ms_contract_witness :
    ((-1 : ℤ) < 0 ∧ set_log_ms init (-1) =
      ⟨some (PyError.valueError ("Log length should not be less than 0.")), init, []⟩) ∧
    ((0 : ℤ) ≤ 5 ∧ set_log_ms init 5 =
      ⟨none, { init with log_ms := 5 }, [Event.write 4 5]⟩) :=
  ⟨⟨by norm_num, (set_log_ms_contract init (-1)).1 (by norm_num)⟩,
    ⟨by norm_num, (set_log_ms_contract init 5).2 (by norm_num)⟩⟩

/-- C7: for nonnegative `ms`, `start_log` issues exactly the write of
`ms` to the log-length cell (offset 4) followed by the write of opcode 7
to the command cell, and `stop_log` issues exactly the write of opcode 1
to the command cell; the traces contain no reads (no polling) and no
other writes. -/
theorem start_stop_log_traces (cmdOff : ℕ) (s : TMP2State) (ms : ℤ) (h : 0 ≤ ms) :
    start_log cmdOff s ms =
      ⟨none, { s with log_ms := ms }, [Event.write 4 ms, Event.write cmdOff 7]⟩ ∧
    stop_log cmdOff s = ⟨none, s, [Event.write cmdOff 1]⟩ := by
  constructor
  · unfold start_log set_log_ms
    rw [if_neg (not_lt.2 h)]
    rfl
  · rfl

theorem start_stop_log_traces_witness :
    (0 : ℤ) ≤ 5 ∧
    start_log 52 init 5 =
      ⟨none, { init with log_ms := 5 }, [Event.write 4 5, Event.write 52 7]⟩ ∧
    stop_log 52 init = ⟨none, init, [Event.write 52 1]⟩ :=
  ⟨by norm_num, start_stop_log_traces 52 init 5 (by norm_num)⟩

/-- C8: the stored log duration is never negative — it is 0 after
construction, and `read`, `set_log_ms`, `start_log`, `stop_log` and
`print_log` all preserve `0 ≤ log_ms`. -/
theorem log_ms_nonneg_invariant :
    0 ≤ init.log_ms ∧
    (∀ cmdOff env data s fuel, 0 ≤ TMP2State.log_ms s →
      0 ≤ ((read cmdOff env data s fuel).2.1).log_ms) ∧
    (∀ s ms, 0 ≤ TMP2State.log_ms s → 0 ≤ ((set_log_ms s ms).state).log_ms) ∧
    (∀ cmdOff s ms, 0 ≤ TMP2State.log_ms s →
      0 ≤ ((start_log cmdOff s ms).state).log_ms) ∧
    (∀ cmdOff s, 0 ≤ TMP2State.log_ms s → 0 ≤ ((stop_log cmdOff s).state).log_ms) ∧
    (∀ cmdOff s mbx, 0 ≤ TMP2State.log_ms s →
      0 ≤ ((print_log cmdOff s mbx).state).log_ms) := by
  refine ⟨by norm_num [init], ?_, ?_, ?_, ?_, ?_⟩
  · intro cmdOff env data s fuel h
    unfold read
    rcases hp : (pollCmd cmdOff env fuel 0).1 with _ | k <;> simp [hp] <;> exact h
  · intro s ms h
    unfold set_log_ms
    by_cases hm : ms < 0
    · rw [if_pos hm]
      exact h
    · rw [if_neg hm]
      simpa using not_lt.1 hm
  · intro cmdOff s ms h
    unfold start_log set_log_ms
    by_cases hm : ms < 0
    · rw [if_pos hm]
      exact h
    · rw [if_neg hm]
      simpa using not_lt.1 hm
  · intro cmdOff s h
    exact h
  · intro cmdOff s mbx h
    exact h

theorem log_ms_nonneg_invariant_witness :
    0 ≤ ((set_log_ms init (-7)).state).log_ms :=
  log_ms_nonneg_invariant.2.2.1 init (-7) (by decide)

/-- C9: `_reg2float 0 = 0`; setting the sign bit of any 32-bit input
with clear sign bit negates the decoded value; and the bit pattern for
+25.0 (biased exponent 131, mantissa of 1.5625, i.e. 0x41C80000 =
1103626240) decodes to 25.0. -/
theorem reg2float_zero_neg_and_25 :
    _reg2float 0 = 0 ∧
    (∀ b : ℕ, b < 2 ^ 31 → _reg2float (b + 2 ^ 31) = - _reg2float b) ∧
    _reg2float 1103626240 = 25 := by
  refine ⟨by norm_num [_reg2float], ?_, ?_⟩
  · intro b hb
    rcases eq_or_ne b 0 with rfl | hb0
    · rw [reg2float_eq_spec]
      norm_num [_reg2float, specDecode, specExp, specExpField, specFrac, specMan,
        specSign, roundTenthsHalfEven, halfEvenInt]
    · rw [reg2float_eq_spec, reg2float_eq_spec]
      unfold specDecode
      rw [if_neg (by omega), if_neg hb0]
      have hfield : specExpField (b + 2 ^ 31) = specExpField b := by
        unfold specExpField
        rw [show (2 : ℕ) ^ 31 = 2 ^ 8 * 2 ^ 23 by norm_num,
          Nat.add_mul_div_right _ _ (by norm_num : 0 < 2 ^ 23), Nat.add_mod_right]
      have hfrac : specFrac (b + 2 ^ 31) = specFrac b := by
        unfold specFrac
        rw [show (2 : ℕ) ^ 31 = 2 ^ 8 * 2 ^ 23 by norm_num,
          Nat.add_mul_mod_self_right]
      have he : specExp (b + 2 ^ 31) = specExp b := by
        unfold specExp
        rw [hfield]
      have hm : specMan (b + 2 ^ 31) = specMan b := by
        unfold specMan
        rw [he, hfrac]
      have hs1 : specSign (b + 2 ^ 31) = -1 := by
        unfold specSign
        rw [Nat.add_div_right _ (by norm_num : 0 < 2 ^ 31), Nat.div_eq_of_lt hb]
        norm_num
      have hs0 : specSign b = 1 := by
        unfold specSign
        rw [Nat.div_eq_of_lt hb]
        norm_num
      rw [he, hm, hs1, hs0]
      rw [show (2 : ℚ) ^ specExp b * specMan b * (((-1 : ℤ) : ℚ)) =
        -((2 : ℚ) ^ specExp b * specMan b * (((1 : ℤ) : ℚ))) by push_cast; ring]
      exact roundTenthsHalfEven_neg _
  · rw [reg2float_eq_spec]
    norm_num [specDecode, specExp, specExpField, specFrac, specMan, specSign,
      roundTenthsHalfEven, halfEvenInt]

theorem reg2float_zero_neg_and_25_witness :
    (1103626240 : ℕ) < 2 ^ 31 ∧
    _reg2float (1103626240 + 2 ^ 31) = - _reg2float 1103626240 :=
  ⟨by norm_num, reg2float_zero_neg_and_25.2.1 1103626240 (by norm_num)⟩

/-- C10: `start_log` with a negative argument raises `ValueError` from
`set_log_ms` before any mailbox write: opcode 7 is not written, the
log-length cell is not written, and `log_ms` is unchanged. -/
theorem start_log_negative_atomic (cmdOff : ℕ) (s : TMP2State) (ms : ℤ)
    (h : ms < 0) :
    start_log cmdOff s ms =
      ⟨some (PyError.valueError ("Log length should not be less than 0.")), s, []⟩ := by
  unfold start_log set_log_ms
  rw [if_pos h]

theorem start_log_negative_atomic_witness :
    (-1 : ℤ) < 0 ∧
    start_log 52 init (-1) =
      ⟨some (PyError.valueError ("Log length should not be less than 0.")), init, []⟩ :=
  ⟨by norm_num, start_log_negative_atomic 52 init (-1) (by norm_num)⟩

end Tmp2
